import Mathlib

/-!
Shallow embedding of the otelsarama instrumentation layer
(src/option.go, src/dispatcher.go, src/process_operation.go).

Conventions of the embedding:
  * OpenTelemetry attribute key/values become `KeyValue` over `AttrValue`.
  * A trace context is `Ctx := Option Nat`: `none` is a context carrying no
    valid span context (context.Background or a failed extraction), `some n`
    a context carrying the remote span context identified by `n`.
  * The external propagator composed with the message-header carrier is
    modelled as an abstract function `List (String × String) → Ctx`
    (the propagator and the carrier are external to the three source files).
  * The side effects of the dispatcher loop and of the process operation
    (span start, channel send, span end, metric record, channel close) are
    reified as an `Event` trace emitted in program order.
  * Go interface values that may be nil are modelled as `Option`;
    calling a method on a nil interface is a runtime panic, surfaced as a
    `Bool` panic flag.
  * Go machine integers become `Int` (with the explicit 64-bit range check
    where the source checks for overflow, in `atoi`).
-/

namespace Otelsarama

/-- An OpenTelemetry attribute value: the source only uses
`attribute.String` and `attribute.Int`. -/
inductive AttrValue where
  | str (s : String)
  | int (i : Int)
deriving DecidableEq, Repr

/-- An OpenTelemetry attribute key/value pair (`attribute.KeyValue`). -/
structure KeyValue where
  key : String
  value : AttrValue
deriving DecidableEq, Repr

/-- A context as passed around by the instrumentation: it either carries a
valid (remote) span context, identified by a `Nat`, or none
(`context.Background()` / empty extraction result). -/
abbrev Ctx := Option Nat

/-- The fields of `sarama.ConsumerMessage` that the instrumentation reads
(plus the payload fields, to state that messages are forwarded unmodified).
Bytes are modelled as `List Nat`. -/
structure ConsumerMessage where
  topic : String
  partition : Int
  offset : Int
  headers : List (String × String)
  keyBytes : List Nat
  valueBytes : List Nat
deriving DecidableEq, Repr

/-- Go `strconv.FormatInt(i, 10)`: decimal rendering of an integer. -/
def formatInt (i : Int) : String := toString i

/-! ## option.go -/

def defaultTracerName : String :=
  "go.opentelemetry.io/contrib/instrumentation/github.com/IBM/sarama/otelsarama"

def defaultMeterName : String := defaultTracerName

/-- The `config` struct of option.go.  Provider and propagator references are
opaque handles (`Nat`); the resolved `Tracer`/`Meter` handles pair the
provider they came from with the instrumentation-scope name (`none` models
the nil interface value they hold before `newConfig` resolves them). -/
structure Config where
  TracerProvider : Nat
  MeterProvider : Nat
  Propagators : Nat
  Tracer : Option (Nat × String)
  Meter : Option (Nat × String)
  ServerAddress : String
  ServerPort : Int
  ConsumerGroupID : String
deriving DecidableEq, Repr

/-- The process-wide globals read by `newConfig`
(`otel.GetTextMapPropagator`, `otel.GetTracerProvider`, `otel.GetMeterProvider`). -/
structure Globals where
  tracerProvider : Nat
  meterProvider : Nat
  propagators : Nat
deriving DecidableEq, Repr

/-- `newConfig`: start from the globals, apply the options in order, then
resolve the tracer and meter handles from the (possibly overridden)
providers.  (`trace.WithInstrumentationVersion(Version())` additionally tags
the handles with the library version from version.go, which is not under
src/ and does not affect any claim; the handle here records the provider and
the scope name.) -/
def newConfig (g : Globals) (opts : List (Config → Config)) : Config :=
  let cfg : Config :=
    { TracerProvider := g.tracerProvider
      MeterProvider := g.meterProvider
      Propagators := g.propagators
      Tracer := none
      Meter := none
      ServerAddress := ""
      ServerPort := 0
      ConsumerGroupID := "" }
  let cfg := opts.foldl (fun c o => o c) cfg
  let cfg := { cfg with Tracer := some (cfg.TracerProvider, defaultTracerName) }
  { cfg with Meter := some (cfg.MeterProvider, defaultMeterName) }

/-- `WithTracerProvider`: the argument is a nilable interface value
(`Option Nat`); the field is only overwritten when the argument is non-nil. -/
def WithTracerProvider (provider : Option Nat) : Config → Config :=
  fun cfg =>
    match provider with
    | some p => { cfg with TracerProvider := p }
    | none => cfg

/-- `WithPropagators`: the field is only overwritten when the argument is
non-nil. -/
def WithPropagators (propagators : Option Nat) : Config → Config :=
  fun cfg =>
    match propagators with
    | some p => { cfg with Propagators := p }
    | none => cfg

/-- Go `strings.Split(s, sep)` for a single-character separator, on the
character list: splits around every occurrence of `sep`; the result is
always non-empty. -/
def splitOnChar (sep : Char) : List Char → List (List Char)
  | [] => [[]]
  | c :: r =>
    if c = sep then [] :: splitOnChar sep r
    else
      match splitOnChar sep r with
      | s :: ss => (c :: s) :: ss
      | [] => [[c]]

/-- Go `strings.Split` on `String`, single-character separator. -/
def stringsSplit (s : String) (sep : Char) : List String :=
  (splitOnChar sep s.toList).map String.mk

/-- Go `strconv.Atoi`: optional sign, at least one decimal digit, no other
characters, result within the 64-bit signed range; `none` models a non-nil
error. -/
def atoi (s : String) : Option Int :=
  let cs := s.toList
  let signed : Bool × List Char :=
    match cs with
    | '+' :: r => (false, r)
    | '-' :: r => (true, r)
    | _ => (false, cs)
  let ds := signed.2
  if ds.isEmpty then none
  else if ds.all Char.isDigit then
    let n : Nat := ds.foldl (fun a c => a * 10 + (c.toNat - 48)) 0
    let v : Int := if signed.1 then -(n : Int) else (n : Int)
    if -(2 ^ 63) ≤ v ∧ v ≤ 2 ^ 63 - 1 then some v else none
  else none

/-- `WithBrokerAddresses`: a single address is split at `:` into server
address and (when parseable) server port; otherwise the addresses are joined
with `;` into the server address. -/
def WithBrokerAddresses (addresses : List String) : Config → Config :=
  fun cfg =>
    match addresses with
    | [a] =>
      let uriParts := stringsSplit a ':'
      let cfg := { cfg with ServerAddress := uriParts.headI }
      match uriParts with
      | _ :: p1 :: _ =>
        match atoi p1 with
        | some iPort => { cfg with ServerPort := iPort }
        | none => cfg
      | _ => cfg
    | _ => { cfg with ServerAddress := String.intercalate ";" addresses }

/-- `WithConsumerGroup`. -/
def WithConsumerGroup (groupID : String) : Config → Config :=
  fun cfg => { cfg with ConsumerGroupID := groupID }

/-! ## Telemetry events

The observable side effects of the dispatcher loop and of a process
operation, in program order. -/

/-- A reified side effect.  `spanStart` records the name, the context passed
as parent to `Tracer.Start`, the attributes, the links
(`trace.WithLinks`), and the span kind option; `forward` is a send on the
wrapper's output channel; `histRecord`/`counterAdd` name the instrument and
carry the metric attributes; `closeOutput` closes the output channel. -/
inductive Event where
  | spanStart (name : String) (parent : Ctx) (attrs : List KeyValue)
      (links : List Ctx) (kind : Option String)
  | forward (msg : ConsumerMessage)
  | spanEnd
  | histRecord (instrument : String) (attrs : List KeyValue)
  | counterAdd (instrument : String) (inc : Int) (attrs : List KeyValue)
  | closeOutput
deriving DecidableEq, Repr

/-- The data carried by a `spanStart` event. -/
structure SpanData where
  name : String
  parent : Ctx
  attrs : List KeyValue
  links : List Ctx
  kind : Option String
deriving DecidableEq, Repr

def spanStartData : Event → Option SpanData
  | .spanStart n p a l k => some ⟨n, p, a, l, k⟩
  | _ => none

/-- All span starts of a trace, in order. -/
def spanStarts (tr : List Event) : List SpanData := tr.filterMap spanStartData

def forwardData : Event → Option ConsumerMessage
  | .forward m => some m
  | _ => none

/-- All messages sent on the output channel, in order. -/
def forwards (tr : List Event) : List ConsumerMessage := tr.filterMap forwardData

def histRecordData : Event → Option (String × List KeyValue)
  | .histRecord i a => some (i, a)
  | _ => none

/-- All histogram records of a trace, in order. -/
def histRecords (tr : List Event) : List (String × List KeyValue) :=
  tr.filterMap histRecordData

def counterAddData : Event → Option (String × Int × List KeyValue)
  | .counterAdd i n a => some (i, n, a)
  | _ => none

/-- All counter increments of a trace, in order. -/
def counterAdds (tr : List Event) : List (String × Int × List KeyValue) :=
  tr.filterMap counterAddData

def closeData : Event → Option Unit
  | .closeOutput => some ()
  | _ => none

/-- All channel-close events of a trace. -/
def closes (tr : List Event) : List Unit := tr.filterMap closeData

/-! ## dispatcher.go -/

/-- The `defaultAttributes` list built by
`newConsumerMessagesDispatcherWrapper` (dispatcher.go:56-68): messaging
system and operation name, then conditionally server address, server port
and consumer group. -/
def dispatcherDefaultAttributes (cfg : Config) : List KeyValue :=
  [⟨"messaging.system", .str "kafka"⟩,
   ⟨"messaging.operation.name", .str "receive"⟩]
  ++ (if cfg.ServerAddress ≠ "" then [⟨"server.address", .str cfg.ServerAddress⟩] else [])
  ++ (if cfg.ServerPort ≠ 0 then [⟨"server.port", .int cfg.ServerPort⟩] else [])
  ++ (if cfg.ConsumerGroupID ≠ "" then
        [⟨"messaging.consumer.group.name", .str cfg.ConsumerGroupID⟩] else [])

/-- The per-message metric attributes of the dispatcher (dispatcher.go:97-100):
the shared default list extended with destination name and partition id. -/
def receiveMetricAttrs (defaults : List KeyValue) (m : ConsumerMessage) : List KeyValue :=
  defaults ++
    [⟨"messaging.destination.name", .str m.topic⟩,
     ⟨"messaging.destination.partition.id", .str (formatInt m.partition)⟩]

/-- The per-message span attributes of the dispatcher (dispatcher.go:101):
the metric attributes extended with the message id (the offset). -/
def receiveSpanAttrs (defaults : List KeyValue) (m : ConsumerMessage) : List KeyValue :=
  receiveMetricAttrs defaults m ++
    [⟨"messaging.message.id", .str (formatInt m.offset)⟩]

/-- The `consumerMessagesDispatcherWrapper` state: the two instrument
handles, the shared default attribute list, and the extraction behaviour of
`cfg.Propagators.Extract` composed with the consumer-message carrier
(external code, modelled as an abstract function on the header list). -/
structure consumerMessagesDispatcherWrapper where
  receiveDuration : String
  consumedMessages : String
  defaultAttributes : List KeyValue
  extract : List (String × String) → Ctx

/-- `newConsumerMessagesDispatcherWrapper`: creates the two instruments and
the default attribute list from the config.  `ext` is the extraction
behaviour of the propagator referenced by `cfg.Propagators`. -/
def newConsumerMessagesDispatcherWrapper (cfg : Config)
    (ext : List (String × String) → Ctx) : consumerMessagesDispatcherWrapper :=
  { receiveDuration := "messaging.client.operation.duration"
    consumedMessages := "messaging.client.consumed.messages"
    defaultAttributes := dispatcherDefaultAttributes cfg
    extract := ext }

/-- The body of the dispatcher's `for msg := range msgs` loop
(dispatcher.go:89-117), as the event list it emits in program order:
extract, start the span (parented to the extracted context and linked to
it), forward the message, end the span, record the two metrics. -/
def consumerMessagesDispatcherWrapper.processOne
    (w : consumerMessagesDispatcherWrapper) (m : ConsumerMessage) : List Event :=
  let parentSpanContext := w.extract m.headers
  let attrs := receiveMetricAttrs w.defaultAttributes m
  let spanAttrs := receiveSpanAttrs w.defaultAttributes m
  [Event.spanStart (m.topic ++ " receive") parentSpanContext spanAttrs
     [parentSpanContext] none,
   Event.forward m,
   Event.spanEnd,
   Event.histRecord w.receiveDuration attrs,
   Event.counterAdd w.consumedMessages (1 : Int) attrs]

/-- `Run` (dispatcher.go:86-119) on a finite input stream: iterate the loop
body over the messages, close the output channel when the input is
exhausted.  The wrapper state is threaded explicitly and returned, so that
its non-mutation is a stated fact rather than a modelling convention. -/
def consumerMessagesDispatcherWrapper.Run (w : consumerMessagesDispatcherWrapper) :
    List ConsumerMessage → List Event × consumerMessagesDispatcherWrapper
  | [] => ([Event.closeOutput], w)
  | m :: rest =>
    let evs := w.processOne m
    let tail := consumerMessagesDispatcherWrapper.Run w rest
    (evs ++ tail.1, tail.2)

/-! ## process_operation.go -/

/-- The `MessageProcessInstrumenter` struct: the process-duration histogram
handle (`Option`, because a Go interface field can be nil — in particular in
the struct's zero value), the default attribute list, and the extraction
behaviour of `cfg.Propagators` (as in the dispatcher). -/
structure MessageProcessInstrumenter where
  metricProcessDuration : Option String
  defaultAttributes : List KeyValue
  extract : List (String × String) → Ctx

/-- The `defaultAttributes` list built by `NewMessageProcessInstrumenter`
(process_operation.go:48-57): system and operation name, then conditionally
server address and port (no consumer group here). -/
def processDefaultAttributes (cfg : Config) : List KeyValue :=
  [⟨"messaging.system", .str "kafka"⟩,
   ⟨"messaging.operation.name", .str "process"⟩]
  ++ (if cfg.ServerAddress ≠ "" then [⟨"server.address", .str cfg.ServerAddress⟩] else [])
  ++ (if cfg.ServerPort ≠ 0 then [⟨"server.port", .int cfg.ServerPort⟩] else [])

/-- `NewMessageProcessInstrumenter` (process_operation.go:40-64); `ext` is
the extraction behaviour of the propagator resolved by the config. -/
def NewMessageProcessInstrumenter (cfg : Config)
    (ext : List (String × String) → Ctx) : MessageProcessInstrumenter :=
  { metricProcessDuration := some "messaging.client.process.duration"
    defaultAttributes := processDefaultAttributes cfg
    extract := ext }

/-- The zero value of `MessageProcessInstrumenter`: nil histogram interface,
nil attribute slice.  (The nil `Propagators` of the zero `config` is never
invoked by `Stop`, so the function field's value is irrelevant; it is
modelled as the empty extraction.) -/
def MessageProcessInstrumenter.zeroValue : MessageProcessInstrumenter :=
  { metricProcessDuration := none
    defaultAttributes := []
    extract := fun _ => none }

/-- The `MessageProcessOperation` struct.  The Go `error` field is a nilable
interface carrying a descriptive text, modelled as `Option String`; the
`time.Time` start is an abstract clock tick; the span is an opaque handle. -/
structure MessageProcessOperation where
  instrumenter : MessageProcessInstrumenter
  err : Option String
  start : Int
  span : Nat
  topic : String
  partition : String

/-- The span attributes built by `NewProcessOperation`
(process_operation.go:82-86): defaults extended with destination name,
message id, partition id — in that order. -/
def processSpanAttrs (defaults : List KeyValue) (m : ConsumerMessage) : List KeyValue :=
  defaults ++
    [⟨"messaging.destination.name", .str m.topic⟩,
     ⟨"messaging.message.id", .str (formatInt m.offset)⟩,
     ⟨"messaging.destination.partition.id", .str (formatInt m.partition)⟩]

/-- `NewProcessOperation` (process_operation.go:76-100): extracts the parent
context, starts a consumer-kind span parented to it and linked to it, and
returns the operation value together with the emitted events.  The composite
literal at process_operation.go:94-99 sets only `span`, `topic`, `partition`
and `start`; the `instrumenter` field is left to its zero value — the
embedding mirrors that verbatim. -/
def MessageProcessInstrumenter.NewProcessOperation
    (instrumenter : MessageProcessInstrumenter) (m : ConsumerMessage)
    (now : Int) : MessageProcessOperation × List Event :=
  let parentSpanContext := instrumenter.extract m.headers
  let attrs := processSpanAttrs instrumenter.defaultAttributes m
  let evs := [Event.spanStart (m.topic ++ " process") parentSpanContext attrs
      [parentSpanContext] (some "consumer")]
  ({ instrumenter := MessageProcessInstrumenter.zeroValue
     err := none
     start := now
     span := 0
     topic := m.topic
     partition := formatInt m.partition }, evs)

/-- `SetError` (process_operation.go:102-104): stores the (nilable) error on
the operation; a later call overwrites an earlier one. -/
def MessageProcessOperation.SetError (msg : MessageProcessOperation)
    (err : Option String) : MessageProcessOperation :=
  { msg with err := err }

/-- The attribute list computed by `Stop` (process_operation.go:109-116) and
passed to `Record`: the operation's instrumenter defaults extended with
destination and partition, plus `error.type` when an error was set. -/
def MessageProcessOperation.stopAttrs (msg : MessageProcessOperation) : List KeyValue :=
  let attrs := msg.instrumenter.defaultAttributes ++
    [⟨"messaging.destination.name", .str msg.topic⟩,
     ⟨"messaging.destination.partition.id", .str msg.partition⟩]
  match msg.err with
  | some e => attrs ++ [⟨"error.type", .str e⟩]
  | none => attrs

/-- `Stop` (process_operation.go:106-123): ends the span, then records the
elapsed duration on the process-duration histogram with the computed
attributes.  When the histogram interface is nil (the zero instrumenter),
the `Record` call is a nil-interface method call: a runtime panic, surfaced
as the `true` flag with only the span-end event emitted. -/
def MessageProcessOperation.Stop (msg : MessageProcessOperation) :
    List Event × Bool :=
  match msg.instrumenter.metricProcessDuration with
  | none => ([Event.spanEnd], true)
  | some instr => ([Event.spanEnd, Event.histRecord instr msg.stopAttrs], false)

/-! ## Verification helpers -/

/-- Whether an attribute list has an entry with the given key. -/
def hasKey (k : String) : List KeyValue → Bool
  | [] => false
  | kv :: r => if kv.key = k then true else hasKey k r

/-- First value bound to the given key in an attribute list. -/
def lookupAttr (k : String) : List KeyValue → Option AttrValue
  | [] => none
  | kv :: r => if kv.key = k then some kv.value else lookupAttr k r

theorem hasKey_append (k : String) (a b : List KeyValue) :
    hasKey k (a ++ b) = (hasKey k a || hasKey k b) := by
  induction a with
  | nil => rfl
  | cons kv r ih => by_cases h : kv.key = k <;> simp [hasKey, h, ih]

theorem lookupAttr_append_right (k : String) (a b : List KeyValue)
    (h : hasKey k a = false) : lookupAttr k (a ++ b) = lookupAttr k b := by
  induction a with
  | nil => rfl
  | cons kv r ih =>
    by_cases hk : kv.key = k
    · simp [hasKey, hk] at h
    · simp [hasKey, hk] at h
      simp [lookupAttr, hk, ih h]

/-- A fixed sample configuration used by concrete witnesses. -/
def sampleConfig : Config :=
  { TracerProvider := 0
    MeterProvider := 0
    Propagators := 0
    Tracer := none
    Meter := none
    ServerAddress := ""
    ServerPort := 0
    ConsumerGroupID := "" }

/-- A fixed sample message used by concrete witnesses. -/
def sampleMsg : ConsumerMessage :=
  { topic := "t"
    partition := 0
    offset := 0
    headers := []
    keyBytes := []
    valueBytes := [] }

theorem splitOnChar_of_not_mem (sep : Char) (l : List Char) (h : sep ∉ l) :
    splitOnChar sep l = [l] := by
  induction l with
  | nil => rfl
  | cons c r ih =>
    have hc : ¬ c = sep := fun e => h (e ▸ List.mem_cons_self c r)
    have hr : sep ∉ r := fun hm => h (List.mem_cons_of_mem _ hm)
    simp [splitOnChar, hc, ih hr]

theorem splitOnChar_append (sep : Char) (h t : List Char) (hh : sep ∉ h) :
    splitOnChar sep (h ++ sep :: t) = h :: splitOnChar sep t := by
  induction h with
  | nil => simp [splitOnChar]
  | cons c r ih =>
    have hc : ¬ c = sep := fun e => hh (e ▸ List.mem_cons_self c r)
    have hr : sep ∉ r := fun hm => hh (List.mem_cons_of_mem _ hm)
    simp [splitOnChar, hc, ih hr]

theorem string_mk_toList (s : String) : String.mk s.toList = s := by
  cases s; rfl

theorem stringsSplit_hostPort (host portStr : String)
    (hh : ':' ∉ host.toList) (hp : ':' ∉ portStr.toList) :
    stringsSplit (host ++ ":" ++ portStr) ':' = [host, portStr] := by
  have hdata : (host ++ ":" ++ portStr).toList
      = host.toList ++ ':' :: portStr.toList := by
    simp [String.toList, String.data_append]
  rw [stringsSplit, hdata, splitOnChar_append _ _ _ hh,
    splitOnChar_of_not_mem _ _ hp]
  simp [string_mk_toList]

theorem stringsSplit_no_colon (host : String) (hh : ':' ∉ host.toList) :
    stringsSplit host ':' = [host] := by
  rw [stringsSplit, splitOnChar_of_not_mem _ _ hh]
  simp [string_mk_toList]

theorem Run_state (w : consumerMessagesDispatcherWrapper)
    (msgs : List ConsumerMessage) : (w.Run msgs).2 = w := by
  induction msgs with
  | nil => rfl
  | cons m rest ih => exact ih

theorem processOne_length (w : consumerMessagesDispatcherWrapper)
    (m : ConsumerMessage) : (w.processOne m).length = 5 := rfl

theorem Run_length (w : consumerMessagesDispatcherWrapper)
    (msgs : List ConsumerMessage) :
    (w.Run msgs).1.length = 5 * msgs.length + 1 := by
  induction msgs with
  | nil => rfl
  | cons m rest ih =>
    show (w.processOne m ++ (w.Run rest).1).length = _
    simp [List.length_append, processOne_length, ih]
    ring

theorem forwards_Run (w : consumerMessagesDispatcherWrapper)
    (msgs : List ConsumerMessage) : forwards (w.Run msgs).1 = msgs := by
  induction msgs with
  | nil => rfl
  | cons m rest ih =>
    have h1 : (w.processOne m).filterMap forwardData = [m] := rfl
    show (w.processOne m ++ (w.Run rest).1).filterMap forwardData = _
    rw [List.filterMap_append, h1]
    exact congrArg (fun l => m :: l) ih

theorem spanStarts_Run (w : consumerMessagesDispatcherWrapper)
    (msgs : List ConsumerMessage) :
    spanStarts (w.Run msgs).1 = msgs.map (fun x =>
      ⟨x.topic ++ " receive", w.extract x.headers,
        receiveSpanAttrs w.defaultAttributes x, [w.extract x.headers], none⟩) := by
  induction msgs with
  | nil => rfl
  | cons m rest ih =>
    have h1 : (w.processOne m).filterMap spanStartData
        = [⟨m.topic ++ " receive", w.extract m.headers,
            receiveSpanAttrs w.defaultAttributes m, [w.extract m.headers], none⟩] := rfl
    show (w.processOne m ++ (w.Run rest).1).filterMap spanStartData = _
    rw [List.filterMap_append, h1, List.map_cons]
    exact congrArg (fun l => _ :: l) ih

theorem histRecords_Run (w : consumerMessagesDispatcherWrapper)
    (msgs : List ConsumerMessage) :
    histRecords (w.Run msgs).1 = msgs.map (fun x =>
      (w.receiveDuration, receiveMetricAttrs w.defaultAttributes x)) := by
  induction msgs with
  | nil => rfl
  | cons m rest ih =>
    have h1 : (w.processOne m).filterMap histRecordData
        = [(w.receiveDuration, receiveMetricAttrs w.defaultAttributes m)] := rfl
    show (w.processOne m ++ (w.Run rest).1).filterMap histRecordData = _
    rw [List.filterMap_append, h1, List.map_cons]
    exact congrArg (fun l => _ :: l) ih

theorem counterAdds_Run (w : consumerMessagesDispatcherWrapper)
    (msgs : List ConsumerMessage) :
    counterAdds (w.Run msgs).1 = msgs.map (fun x =>
      (w.consumedMessages, (1 : Int), receiveMetricAttrs w.defaultAttributes x)) := by
  induction msgs with
  | nil => rfl
  | cons m rest ih =>
    have h1 : (w.processOne m).filterMap counterAddData
        = [(w.consumedMessages, (1 : Int), receiveMetricAttrs w.defaultAttributes m)] := rfl
    show (w.processOne m ++ (w.Run rest).1).filterMap counterAddData = _
    rw [List.filterMap_append, h1, List.map_cons]
    exact congrArg (fun l => _ :: l) ih

theorem closes_Run (w : consumerMessagesDispatcherWrapper)
    (msgs : List ConsumerMessage) : closes (w.Run msgs).1 = [()] := by
  induction msgs with
  | nil => rfl
  | cons m rest ih =>
    have h1 : (w.processOne m).filterMap closeData = [] := rfl
    show (w.processOne m ++ (w.Run rest).1).filterMap closeData = _
    rw [List.filterMap_append, h1, List.nil_append]
    exact ih

theorem Run_close_at_end (w : consumerMessagesDispatcherWrapper)
    (msgs : List ConsumerMessage) :
    (w.Run msgs).1[5 * msgs.length]? = some Event.closeOutput := by
  induction msgs with
  | nil => rfl
  | cons m rest ih =>
    show (w.processOne m ++ (w.Run rest).1)[5 * (rest.length + 1)]? = _
    rw [List.getElem?_append_right (by rw [processOne_length]; omega)]
    have h2 : 5 * (rest.length + 1) - (w.processOne m).length = 5 * rest.length := by
      rw [processOne_length]; omega
    rw [h2]
    exact ih

theorem Run_getElem (w : consumerMessagesDispatcherWrapper)
    (msgs : List ConsumerMessage) :
    ∀ (i : Nat) (m : ConsumerMessage), msgs[i]? = some m →
      (w.Run msgs).1[5 * i]? = some (Event.spanStart (m.topic ++ " receive")
          (w.extract m.headers) (receiveSpanAttrs w.defaultAttributes m)
          [w.extract m.headers] none)
      ∧ (w.Run msgs).1[5 * i + 1]? = some (Event.forward m)
      ∧ (w.Run msgs).1[5 * i + 2]? = some Event.spanEnd
      ∧ (w.Run msgs).1[5 * i + 3]? = some (Event.histRecord w.receiveDuration
          (receiveMetricAttrs w.defaultAttributes m))
      ∧ (w.Run msgs).1[5 * i + 4]? = some (Event.counterAdd w.consumedMessages
          (1 : Int) (receiveMetricAttrs w.defaultAttributes m)) := by
  induction msgs with
  | nil => intro i m h; simp at h
  | cons x rest ih =>
    intro i m h
    match i with
    | 0 =>
      have hx : x = m := by simpa using h
      subst hx
      have hsplit : (w.Run (x :: rest)).1 = w.processOne x ++ (w.Run rest).1 := rfl
      refine ⟨?_, ?_, ?_, ?_, ?_⟩ <;>
      · rw [hsplit, List.getElem?_append_left (by rw [processOne_length]; omega)]
        rfl
    | Nat.succ j =>
      have hrest : rest[j]? = some m := by simpa using h
      have ihj := ih j m hrest
      have step : ∀ (c : Nat) (e : Event),
          (w.Run rest).1[5 * j + c]? = some e →
          (w.Run (x :: rest)).1[5 * (j + 1) + c]? = some e := by
        intro c e he
        show (w.processOne x ++ (w.Run rest).1)[5 * (j + 1) + c]? = some e
        rw [List.getElem?_append_right (by rw [processOne_length]; omega)]
        have h2 : 5 * (j + 1) + c - (w.processOne x).length = 5 * j + c := by
          rw [processOne_length]; omega
        rw [h2]; exact he
      refine ⟨?_, step 1 _ ihj.2.1, step 2 _ ihj.2.2.1,
        step 3 _ ihj.2.2.2.1, step 4 _ ihj.2.2.2.2⟩
      have h0 := step 0 _ ihj.1
      simpa using h0

/-- None of the keys listed in the hypotheses occurs in the dispatcher's
default attribute list, whatever the configuration. -/
theorem dispatcherDefaults_hasKey_false (cfg : Config) (k : String)
    (h1 : "messaging.system" ≠ k) (h2 : "messaging.operation.name" ≠ k)
    (h3 : "server.address" ≠ k) (h4 : "server.port" ≠ k)
    (h5 : "messaging.consumer.group.name" ≠ k) :
    hasKey k (dispatcherDefaultAttributes cfg) = false := by
  unfold dispatcherDefaultAttributes
  simp only [hasKey_append, Bool.or_eq_false_iff]
  refine ⟨⟨⟨by simp [hasKey, h1, h2], ?_⟩, ?_⟩, ?_⟩ <;>
    · split <;> simp [hasKey, h3, h4, h5]

/-- None of the keys listed in the hypotheses occurs in the process
instrumenter's default attribute list, whatever the configuration. -/
theorem processDefaults_hasKey_false (cfg : Config) (k : String)
    (h1 : "messaging.system" ≠ k) (h2 : "messaging.operation.name" ≠ k)
    (h3 : "server.address" ≠ k) (h4 : "server.port" ≠ k) :
    hasKey k (processDefaultAttributes cfg) = false := by
  unfold processDefaultAttributes
  simp only [hasKey_append, Bool.or_eq_false_iff]
  refine ⟨⟨by simp [hasKey, h1, h2], ?_⟩, ?_⟩ <;>
    · split <;> simp [hasKey, h3, h4]

theorem take_length_append (a b : List KeyValue) : (a ++ b).take a.length = a := by
  simp

/-! ## Claims -/

/-- C3: for every finite input sequence of messages consumed by the
dispatcher's `Run` loop, the messages emitted on the output channel are
exactly the input messages: same count, same order, each forwarded message
the identical unmodified value that was received. -/
theorem C3_messages_proxied_unchanged (w : consumerMessagesDispatcherWrapper)
    (msgs : List ConsumerMessage) : forwards (w.Run msgs).1 = msgs := by
  induction msgs with
  | nil => rfl
  | cons m rest ih =>
    have h1 : (w.processOne m).filterMap forwardData = [m] := rfl
    show (w.processOne m ++ (w.Run rest).1).filterMap forwardData = _
    rw [List.filterMap_append, h1]
    exact congrArg (fun l => m :: l) ih

/-- C10: `WithTracerProvider nil` and `WithPropagators nil` leave the
corresponding configuration field unchanged — inserting either option
anywhere in the option list yields the same resolved configuration as
omitting it. -/
theorem C10_nil_options_ignored (g : Globals)
    (opts1 opts2 : List (Config → Config)) :
    newConfig g (opts1 ++ WithTracerProvider none :: opts2)
        = newConfig g (opts1 ++ opts2)
    ∧ newConfig g (opts1 ++ WithPropagators none :: opts2)
        = newConfig g (opts1 ++ opts2) := by
  constructor <;>
  · simp [newConfig, List.foldl_append, WithTracerProvider, WithPropagators]

/-- C4: `WithBrokerAddresses` with a single `host` or `host:port` address
sets the server address to the host part and, when the port parses, the
server port to the parsed integer (a parse failure leaves the port
unchanged, the address still set); with two or more addresses it sets the
server address to the `;`-join and never touches the port. -/
theorem C4_broker_address_resolution (cfg : Config)
    (host portStr addr1 addr2 : String) (rest : List String)
    (hh : ':' ∉ host.toList) (hp : ':' ∉ portStr.toList) :
    ((WithBrokerAddresses [host] cfg).ServerAddress = host
      ∧ (WithBrokerAddresses [host] cfg).ServerPort = cfg.ServerPort)
    ∧ ((WithBrokerAddresses [host ++ ":" ++ portStr] cfg).ServerAddress = host
      ∧ (∀ p, atoi portStr = some p →
          (WithBrokerAddresses [host ++ ":" ++ portStr] cfg).ServerPort = p)
      ∧ (atoi portStr = none →
          (WithBrokerAddresses [host ++ ":" ++ portStr] cfg).ServerPort
            = cfg.ServerPort))
    ∧ ((WithBrokerAddresses (addr1 :: addr2 :: rest) cfg).ServerAddress
        = String.intercalate ";" (addr1 :: addr2 :: rest)
      ∧ (WithBrokerAddresses (addr1 :: addr2 :: rest) cfg).ServerPort
        = cfg.ServerPort) := by
  refine ⟨?_, ?_, by simp [WithBrokerAddresses], by simp [WithBrokerAddresses]⟩
  · have hsplit := stringsSplit_no_colon host hh
    constructor <;> simp [WithBrokerAddresses, hsplit, List.headI]
  · have hsplit := stringsSplit_hostPort host portStr hh hp
    refine ⟨?_, ?_, ?_⟩
    · rcases hcase : atoi portStr with _ | p <;>
        simp [WithBrokerAddresses, hsplit, hcase, List.headI]
    · intro p hcase
      simp [WithBrokerAddresses, hsplit, hcase]
    · intro hcase
      simp [WithBrokerAddresses, hsplit, hcase]

/-- C4 witness: the claim's two concrete examples, via the theorem. -/
theorem C4_broker_address_resolution_witness :
    (WithBrokerAddresses ["localhost" ++ ":" ++ "9092"] sampleConfig).ServerAddress
        = "localhost"
    ∧ (WithBrokerAddresses ["localhost" ++ ":" ++ "9092"] sampleConfig).ServerPort = 9092
    ∧ (WithBrokerAddresses ["a:9092", "b:9093"] sampleConfig).ServerAddress
        = String.intercalate ";" ["a:9092", "b:9093"]
    ∧ (WithBrokerAddresses ["a:9092", "b:9093"] sampleConfig).ServerPort = 0 := by
  have h := C4_broker_address_resolution sampleConfig "localhost" "9092"
    "a:9092" "b:9093" [] (by decide) (by decide)
  exact ⟨h.2.1.1, h.2.1.2.1 9092 (by decide), h.2.2.1, h.2.2.2⟩

/-- C1 (amended): both the "receive" span started by the dispatcher and the
"process" span started by `NewProcessOperation` are started with the
extracted context as their parent context AND carry exactly one causal link
to that same extracted context — the span is a child of the extracted
context (whenever the headers yield a valid one), in addition to the link;
it is not a mere sibling. -/
theorem C1_span_parent_and_link (w : consumerMessagesDispatcherWrapper)
    (msgs : List ConsumerMessage) (inst : MessageProcessInstrumenter)
    (m : ConsumerMessage) (now : Int) :
    (spanStarts (w.Run msgs).1).map (fun s => (s.parent, s.links))
      = msgs.map (fun x => (w.extract x.headers, [w.extract x.headers]))
    ∧ (spanStarts (inst.NewProcessOperation m now).2).map (fun s => (s.parent, s.links))
      = [(inst.extract m.headers, [inst.extract m.headers])] := by
  refine ⟨?_, rfl⟩
  rw [spanStarts_Run, List.map_map]
  rfl

/-- C1 counterexample: with an extraction yielding the valid remote context
`some 7`, both the receive span and the process span are started with that
extracted context as their parent (the parent is `some 7`, a present — i.e.
valid — span context, not the empty root context), so the new span IS a
child of the extracted context, contrary to the claim's "linked, not
parented". -/
theorem C1_counterexample :
    (spanStarts ((newConsumerMessagesDispatcherWrapper sampleConfig
        (fun _ => some 7)).Run [sampleMsg]).1).map SpanData.parent = [some 7]
    ∧ (spanStarts ((NewMessageProcessInstrumenter sampleConfig
        (fun _ => some 7)).NewProcessOperation sampleMsg 0).2).map SpanData.parent
      = [some 7]
    ∧ (newConsumerMessagesDispatcherWrapper sampleConfig
        (fun _ => some 7)).extract sampleMsg.headers = some 7
    ∧ ((some 7 : Ctx)).isSome = true := by
  exact ⟨rfl, rfl, rfl, rfl⟩

/-- C2 (code bug): `NewProcessOperation` omits the `instrumenter` field from
the composite literal it returns, so the operation carries the zero
`MessageProcessInstrumenter`: its process-duration histogram interface is
nil and its default attribute list empty.  `Stop` therefore panics on the
nil-interface `Record` call instead of recording the duration, and even the
attribute list it computes lacks the instrumenter's default attributes —
while the instrumenter itself does hold a valid histogram and a non-empty
default set. -/
theorem C2_stop_panics_on_nil_instrument :
    (((NewMessageProcessInstrumenter sampleConfig (fun _ => none)
        ).NewProcessOperation sampleMsg 0).1.Stop).2 = true
    ∧ ((NewMessageProcessInstrumenter sampleConfig (fun _ => none)
        ).NewProcessOperation sampleMsg 0).1.instrumenter.metricProcessDuration = none
    ∧ ((NewMessageProcessInstrumenter sampleConfig (fun _ => none)
        ).NewProcessOperation sampleMsg 0).1.instrumenter.defaultAttributes = []
    ∧ (NewMessageProcessInstrumenter sampleConfig (fun _ => none)
        ).metricProcessDuration = some "messaging.client.process.duration"
    ∧ (NewMessageProcessInstrumenter sampleConfig (fun _ => none)
        ).defaultAttributes
      = [⟨"messaging.system", .str "kafka"⟩,
         ⟨"messaging.operation.name", .str "process"⟩] := by
  exact ⟨rfl, rfl, rfl, rfl, rfl⟩

/-- C5: the attribute set computed by `Stop` and handed to the histogram
record contains no `error.type` attribute when no error was set, and
contains `error.type` bound to the error's descriptive text when the last
`SetError` call left a non-nil error. -/
theorem C5_error_type_attribute (op : MessageProcessOperation)
    (hd : hasKey "error.type" op.instrumenter.defaultAttributes = false) :
    (op.err = none → hasKey "error.type" op.stopAttrs = false)
    ∧ (∀ e, op.err = some e →
        lookupAttr "error.type" op.stopAttrs = some (AttrValue.str e)) := by
  constructor
  · intro h
    simp [MessageProcessOperation.stopAttrs, h, hasKey_append, hd, hasKey]
  · intro e h
    have ha : hasKey "error.type"
        (op.instrumenter.defaultAttributes ++
          [⟨"messaging.destination.name", .str op.topic⟩,
           ⟨"messaging.destination.partition.id", .str op.partition⟩]) = false := by
      simp [hasKey_append, hd, hasKey]
    simp only [MessageProcessOperation.stopAttrs, h]
    rw [lookupAttr_append_right _ _ _ ha]
    simp [lookupAttr]

/-- C5 witness: a no-error stop carries no error.type; a stop after
`SetError "boom"` carries `error.type = "boom"`. -/
theorem C5_error_type_attribute_witness :
    hasKey "error.type" (((NewMessageProcessInstrumenter sampleConfig
        (fun _ => none)).NewProcessOperation sampleMsg 0).1).stopAttrs = false
    ∧ lookupAttr "error.type" ((((NewMessageProcessInstrumenter sampleConfig
        (fun _ => none)).NewProcessOperation sampleMsg 0).1).SetError
          (some "boom")).stopAttrs = some (AttrValue.str "boom") := by
  exact ⟨(C5_error_type_attribute (((NewMessageProcessInstrumenter sampleConfig
      (fun _ => none)).NewProcessOperation sampleMsg 0).1) rfl).1 rfl,
    (C5_error_type_attribute ((((NewMessageProcessInstrumenter sampleConfig
      (fun _ => none)).NewProcessOperation sampleMsg 0).1).SetError
        (some "boom")) rfl).2 "boom" rfl⟩

/-- C6: on an input that closes after its last message, the output closes
exactly once, at the very end of the trace (index `5 N`, the trace's last
position), strictly after the last message's forward (index `5 (N-1) + 1`)
and its span end (index `5 (N-1) + 2`), and all `N` messages are forwarded. -/
theorem C6_output_closes_after_last (w : consumerMessagesDispatcherWrapper)
    (msgs : List ConsumerMessage) (m : ConsumerMessage)
    (h : msgs.getLast? = some m) :
    (w.Run msgs).1.length = 5 * msgs.length + 1
    ∧ (w.Run msgs).1[5 * msgs.length]? = some Event.closeOutput
    ∧ (closes (w.Run msgs).1).length = 1
    ∧ (forwards (w.Run msgs).1).length = msgs.length
    ∧ (w.Run msgs).1[5 * (msgs.length - 1) + 1]? = some (Event.forward m)
    ∧ (w.Run msgs).1[5 * (msgs.length - 1) + 2]? = some Event.spanEnd := by
  have hidx : msgs[msgs.length - 1]? = some m := by
    rw [← List.getLast?_eq_getElem?]
    exact h
  have hg := Run_getElem w msgs (msgs.length - 1) m hidx
  exact ⟨Run_length w msgs, Run_close_at_end w msgs, by simp [closes_Run],
    by simp [forwards_Run], hg.2.1, hg.2.2.1⟩

/-- C6 witness: a one-message stream, evaluated concretely. -/
theorem C6_output_closes_after_last_witness :
    ((newConsumerMessagesDispatcherWrapper sampleConfig
        (fun _ => none)).Run [sampleMsg]).1.length = 6
    ∧ ((newConsumerMessagesDispatcherWrapper sampleConfig
        (fun _ => none)).Run [sampleMsg]).1[5]? = some Event.closeOutput
    ∧ (closes ((newConsumerMessagesDispatcherWrapper sampleConfig
        (fun _ => none)).Run [sampleMsg]).1).length = 1
    ∧ (forwards ((newConsumerMessagesDispatcherWrapper sampleConfig
        (fun _ => none)).Run [sampleMsg]).1).length = 1
    ∧ ((newConsumerMessagesDispatcherWrapper sampleConfig
        (fun _ => none)).Run [sampleMsg]).1[1]? = some (Event.forward sampleMsg)
    ∧ ((newConsumerMessagesDispatcherWrapper sampleConfig
        (fun _ => none)).Run [sampleMsg]).1[2]? = some Event.spanEnd := by
  have h := C6_output_closes_after_last (newConsumerMessagesDispatcherWrapper
    sampleConfig (fun _ => none)) [sampleMsg] sampleMsg rfl
  exact ⟨h.1, h.2.1, h.2.2.1, h.2.2.2.1, h.2.2.2.2.1, h.2.2.2.2.2⟩

/-- C7: the i-th message's telemetry occupies trace positions 5i..5i+4 in
exactly this order — span start, forward to the output, span end, duration
record, counter increment — so output delivery happens before the span
ends, metrics come after the span, and blocks for successive messages
follow arrival order with no interleaving. -/
theorem C7_per_message_event_order (w : consumerMessagesDispatcherWrapper)
    (msgs : List ConsumerMessage) (i : Nat) (m : ConsumerMessage)
    (h : msgs[i]? = some m) :
    (w.Run msgs).1[5 * i]? = some (Event.spanStart (m.topic ++ " receive")
        (w.extract m.headers) (receiveSpanAttrs w.defaultAttributes m)
        [w.extract m.headers] none)
    ∧ (w.Run msgs).1[5 * i + 1]? = some (Event.forward m)
    ∧ (w.Run msgs).1[5 * i + 2]? = some Event.spanEnd
    ∧ (w.Run msgs).1[5 * i + 3]? = some (Event.histRecord w.receiveDuration
        (receiveMetricAttrs w.defaultAttributes m))
    ∧ (w.Run msgs).1[5 * i + 4]? = some (Event.counterAdd w.consumedMessages
        (1 : Int) (receiveMetricAttrs w.defaultAttributes m)) :=
  Run_getElem w msgs i m h

/-- C7 witness: the five events of a one-message stream, at positions 0-4. -/
theorem C7_per_message_event_order_witness :
    ((newConsumerMessagesDispatcherWrapper sampleConfig
        (fun _ => none)).Run [sampleMsg]).1[1]? = some (Event.forward sampleMsg)
    ∧ ((newConsumerMessagesDispatcherWrapper sampleConfig
        (fun _ => none)).Run [sampleMsg]).1[2]? = some Event.spanEnd
    ∧ ((newConsumerMessagesDispatcherWrapper sampleConfig
        (fun _ => none)).Run [sampleMsg]).1[3]?
      = some (Event.histRecord "messaging.client.operation.duration"
          (receiveMetricAttrs (dispatcherDefaultAttributes sampleConfig) sampleMsg)) := by
  have h := C7_per_message_event_order (newConsumerMessagesDispatcherWrapper
    sampleConfig (fun _ => none)) [sampleMsg] 0 sampleMsg rfl
  exact ⟨h.2.1, h.2.2.1, h.2.2.2.1⟩

/-- C8: per forwarded message the dispatcher makes exactly one
receive-duration record and one consumed-message increment (one trace entry
each per input message, in order), tagged with the default set extended with
destination and partition but without any `messaging.message.id` key, while
the receive span's attributes do carry `messaging.message.id` equal to the
offset (and the same destination/partition values). -/
theorem C8_metric_and_span_attrs (cfg : Config)
    (ext : List (String × String) → Ctx) (msgs : List ConsumerMessage)
    (m : ConsumerMessage) :
    histRecords ((newConsumerMessagesDispatcherWrapper cfg ext).Run msgs).1
      = msgs.map (fun x => ("messaging.client.operation.duration",
          receiveMetricAttrs (dispatcherDefaultAttributes cfg) x))
    ∧ counterAdds ((newConsumerMessagesDispatcherWrapper cfg ext).Run msgs).1
      = msgs.map (fun x => ("messaging.client.consumed.messages", (1 : Int),
          receiveMetricAttrs (dispatcherDefaultAttributes cfg) x))
    ∧ (spanStarts ((newConsumerMessagesDispatcherWrapper cfg ext).Run msgs).1).map
        SpanData.attrs
      = msgs.map (fun x => receiveSpanAttrs (dispatcherDefaultAttributes cfg) x)
    ∧ hasKey "messaging.message.id"
        (receiveMetricAttrs (dispatcherDefaultAttributes cfg) m) = false
    ∧ lookupAttr "messaging.destination.name"
        (receiveMetricAttrs (dispatcherDefaultAttributes cfg) m)
      = some (AttrValue.str m.topic)
    ∧ lookupAttr "messaging.destination.partition.id"
        (receiveMetricAttrs (dispatcherDefaultAttributes cfg) m)
      = some (AttrValue.str (formatInt m.partition))
    ∧ lookupAttr "messaging.message.id"
        (receiveSpanAttrs (dispatcherDefaultAttributes cfg) m)
      = some (AttrValue.str (formatInt m.offset)) := by
  have hmid : hasKey "messaging.message.id" (dispatcherDefaultAttributes cfg) = false :=
    dispatcherDefaults_hasKey_false cfg _ (by decide) (by decide) (by decide)
      (by decide) (by decide)
  have hdest : hasKey "messaging.destination.name"
      (dispatcherDefaultAttributes cfg) = false :=
    dispatcherDefaults_hasKey_false cfg _ (by decide) (by decide) (by decide)
      (by decide) (by decide)
  have hpart : hasKey "messaging.destination.partition.id"
      (dispatcherDefaultAttributes cfg) = false :=
    dispatcherDefaults_hasKey_false cfg _ (by decide) (by decide) (by decide)
      (by decide) (by decide)
  have hmidm : hasKey "messaging.message.id"
      (receiveMetricAttrs (dispatcherDefaultAttributes cfg) m) = false := by
    rw [receiveMetricAttrs, hasKey_append, hmid]
    simp [hasKey]
  refine ⟨?_, ?_, ?_, hmidm, ?_, ?_, ?_⟩
  · rw [histRecords_Run]
    rfl
  · rw [counterAdds_Run]
    rfl
  · rw [spanStarts_Run, List.map_map]
    rfl
  · rw [receiveMetricAttrs, lookupAttr_append_right _ _ _ hdest]
    simp [lookupAttr]
  · rw [receiveMetricAttrs, lookupAttr_append_right _ _ _ hpart]
    simp [lookupAttr]
  · rw [receiveSpanAttrs, lookupAttr_append_right _ _ _ hmidm]
    simp [lookupAttr]

/-- C9: the shared default attribute list is never mutated by per-message
work: running the dispatcher over any message sequence returns the wrapper
state — and in particular its default attribute list — exactly as
constructed, and each per-message attribute list (receive metric/span
attributes, process span attributes, stop attributes) is a pure extension
that keeps the default list intact as its unchanged prefix. -/
theorem C9_default_attributes_immutable (cfg : Config)
    (ext : List (String × String) → Ctx) (msgs : List ConsumerMessage)
    (d : List KeyValue) (m : ConsumerMessage) (op : MessageProcessOperation) :
    ((newConsumerMessagesDispatcherWrapper cfg ext).Run msgs).2
        = newConsumerMessagesDispatcherWrapper cfg ext
    ∧ ((newConsumerMessagesDispatcherWrapper cfg ext).Run msgs).2.defaultAttributes
        = dispatcherDefaultAttributes cfg
    ∧ (receiveMetricAttrs d m).take d.length = d
    ∧ (receiveSpanAttrs d m).take d.length = d
    ∧ (processSpanAttrs d m).take d.length = d
    ∧ op.stopAttrs.take op.instrumenter.defaultAttributes.length
        = op.instrumenter.defaultAttributes := by
  refine ⟨Run_state _ _, by rw [Run_state]; rfl, take_length_append _ _, ?_,
    take_length_append _ _, ?_⟩
  · rw [receiveSpanAttrs, receiveMetricAttrs, List.append_assoc]
    exact take_length_append _ _
  · cases h : op.err with
    | none =>
      simp only [MessageProcessOperation.stopAttrs, h]
      exact take_length_append _ _
    | some e =>
      simp only [MessageProcessOperation.stopAttrs, h]
      rw [List.append_assoc]
      exact take_length_append _ _

end Otelsarama
